import Mathlib

/-!
# React_Journey: the story list of `src/App.js`

A shallow embedding of the pure logic of `src/App.js`:

* `useSemiPersistentState` (lines 41-51): the initial value read from `localStorage`;
* `SORTS` (lines 53-59): the table of list orderings built on lodash `sortBy`;
* `storiesReducer` (lines 61-92): the reducer of the story list state;
* `List` (lines 236-248): the displayed sequence `sortedList` and `handleSort`.

A story is typed the way the data model types it: a record with string fields
`objectID`, `title`, `url`, `author`, a natural number `num_comments` and an integer
`points`. The reducer reads `action.type` as a string and `action.payload` and
`state.data` as JavaScript values that need not have the shape their `case` expects; what
a call throws is the `error` side of `Except`.
-/

namespace ReactJourney

/-! ## Data model -/

/-- One search hit as the Hacker News API delivers it (`result.data.hits[i]`). -/
structure Story where
  objectID : String
  title : String := ""
  url : String := ""
  author : String := ""
  num_comments : Nat := 0
  points : Int := 0
deriving DecidableEq, Repr

/-- A JavaScript value as `action.payload` and `state.data` hold it: `undefined` (the
field is missing), an array of stories, or one story object. -/
inductive Value where
  | undefined
  | array (stories : List Story)
  | object (story : Story)
deriving DecidableEq, Repr

/-- The state owned by `storiesReducer`: `{ data, isLoading, isError }` (line 106). -/
structure State where
  data : Value
  isLoading : Bool
  isError : Bool
deriving DecidableEq, Repr

/-- What a call can throw: the `Error` object of `throw new Error(message)`, or the
`TypeError` the engine raises on a property read of `undefined` and on a call of something
that is no function. -/
inductive JSError where
  | Error (message : String)
  | TypeError
deriving DecidableEq, Repr

/-- An action object `{ type, payload }`; an action written without a payload, such as
`{ type: 'STORIES_FETCH_INIT' }` (line 110), has the payload `undefined`. -/
structure Action where
  type : String
  payload : Value := .undefined
deriving DecidableEq, Repr

/-- The four `case` labels of the `switch (action.type)` in `storiesReducer`. -/
def recognizedTypes : List String :=
  ["STORIES_FETCH_INIT", "STORIES_FETCH_SUCCESS", "STORIES_FETCH_FAILURE", "REMOVE_STORY"]

/-! ## `storiesReducer` (lines 61-92) -/

/-- The property read `value.objectID`: a `TypeError` on `undefined`, `undefined` (here
`none`) on an array, the story's `objectID` on a story object. -/
def Value.objectID : Value → Except JSError (Option String)
  | .undefined => .error .TypeError
  | .array _ => .ok none
  | .object story => .ok (some story.objectID)

/-- The callback of line 86, `story => action.payload.objectID !== story.objectID`. -/
def keepStory (action : Action) (story : Story) : Except JSError Bool :=
  match action.payload.objectID with
  | .ok objectID => .ok (objectID != some story.objectID)
  | .error e => .error e

/-- The loop of `Array.prototype.filter`: the callback is called on each element in turn,
the elements it accepts are kept in order, and what it throws ends the loop. -/
def filterStories (callback : Story → Except JSError Bool) :
    List Story → Except JSError (List Story)
  | [] => .ok []
  | story :: rest =>
      match callback story with
      | .error e => .error e
      | .ok keep =>
          match filterStories callback rest with
          | .error e => .error e
          | .ok kept => .ok (if keep then story :: kept else kept)

/-- The method call `value.filter(callback)`: the filter loop on an array, a `TypeError`
on `undefined` and on a story object, which has no `filter`. -/
def Value.filter (value : Value) (callback : Story → Except JSError Bool) :
    Except JSError Value :=
  match value with
  | .array stories =>
      match filterStories callback stories with
      | .ok kept => .ok (.array kept)
      | .error e => .error e
  | .undefined => .error .TypeError
  | .object _ => .error .TypeError

/-- The reducer: the `switch` on `action.type`, one branch per `case`, the `default` branch
throws `new Error()`. The spread `...state` keeps every field that the branch does not
set. -/
def storiesReducer (state : State) (action : Action) : Except JSError State :=
  match action.type with
  | "STORIES_FETCH_INIT" =>
      .ok { state with isLoading := true, isError := false }
  | "STORIES_FETCH_SUCCESS" =>
      .ok { state with isLoading := false, isError := false, data := action.payload }
  | "STORIES_FETCH_FAILURE" =>
      .ok { state with isLoading := false, isError := true }
  | "REMOVE_STORY" =>
      match state.data.filter (keepStory action) with
      | .ok data => .ok { state with data := data }
      | .error e => .error e
  | _ =>
      .error (.Error "")

/-- The initial state handed to `React.useReducer` in `App` (line 106). -/
def initialStories : State :=
  { data := .array [], isLoading := false, isError := false }

/-- Dispatching a sequence of actions, first to last, starting from `state`; a throwing
reducer call ends the run with that error. -/
def dispatchAll (state : State) : List Action → Except JSError State
  | [] => .ok state
  | action :: rest =>
      match storiesReducer state action with
      | .ok next => dispatchAll next rest
      | .error e => .error e

/-! ## `useSemiPersistentState` (lines 41-51) -/

/-- The content of `localStorage`: the stored key/value pairs, newest binding first. -/
abbrev Storage := List (String × String)

/-- The call `localStorage.getItem(key)`: the stored string, or `null` (here `none`)
when the key has no entry. -/
def Storage.getItem (store : Storage) (key : String) : Option String :=
  store.lookup key

/-- The call `localStorage.setItem(key, value)`. -/
def Storage.setItem (store : Storage) (key value : String) : Storage :=
  (key, value) :: store.filter (fun kv => kv.1 != key)

/-- The operator `a || b` on a left operand that is a string or `null`: `null` and the
empty string are falsy and give `b`, every other string is truthy and is the result. -/
def orElse (a : Option String) (b : String) : String :=
  match a with
  | none => b
  | some s => if s = "" then b else s

/-- The initial value of the hook, `localStorage.getItem(key) || initialState` (line 43). -/
def useSemiPersistentState (store : Storage) (key initialState : String) : String :=
  orElse (store.getItem key) initialState

/-! ## `SORTS` (lines 53-59) -/

/-- The UTF-16 code units of a character; JavaScript compares strings by them. -/
def utf16Char (c : Char) : List Nat :=
  if c.toNat < 0x10000 then [c.toNat]
  else [0xD800 + (c.toNat - 0x10000) / 0x400, 0xDC00 + (c.toNat - 0x10000) % 0x400]

/-- The UTF-16 code units of a string. -/
def utf16 (s : String) : List Nat :=
  s.data.flatMap utf16Char

/-- Insertion of `a` in front of the first element whose sort value is not below the one
of `a`. -/
def orderedInsert {α κ : Type} [LinearOrder κ] (iteratee : α → κ) (a : α) : List α → List α
  | [] => [a]
  | b :: l => if iteratee a ≤ iteratee b then a :: b :: l else b :: orderedInsert iteratee a l

/-- The lodash function `sortBy(list, iteratee)`, imported on line 3: library code that is
not part of `src/`. By the lodash documentation it returns a new array sorted in ascending
order of the iteratee's value and is a stable sort, keeping the original order of elements
with equal values. The result of such a sort is unique; it is computed here by insertion
from the right, each element going in front of the first one whose value is not smaller. -/
def sortBy {α κ : Type} [LinearOrder κ] (list : List α) (iteratee : α → κ) : List α :=
  list.foldr (orderedInsert iteratee) []

/-- The keys of the `SORTS` table. -/
inductive SortKey where
  | NONE | TITLE | AUTHOR | COMMENTS | POINTS
deriving DecidableEq, Repr

/-- The table `SORTS`: `SORTS key` is the function stored under `key`. -/
def SORTS : SortKey → List Story → List Story
  | .NONE => fun list => list
  | .TITLE => fun list => sortBy list (fun story => utf16 story.title)
  | .AUTHOR => fun list => sortBy list (fun story => utf16 story.author)
  | .COMMENTS => fun list => (sortBy list (fun story => story.num_comments)).reverse
  | .POINTS => fun list => (sortBy list (fun story => story.points)).reverse

/-! ## `List` (lines 236-248) -/

/-- The state `sort` of the `List` component: `{ sortKey, isReverse }` (line 238). -/
structure SortSelection where
  sortKey : SortKey
  isReverse : Bool
deriving DecidableEq, Repr

/-- The sequence `sortedList` that `List` renders (lines 240-241):
`sort.isReverse ? sortFunction(list) : sortFunction(list).reverse()`. -/
def sortedList (sort : SortSelection) (list : List Story) : List Story :=
  let sortFunction := SORTS sort.sortKey
  if sort.isReverse then sortFunction list else (sortFunction list).reverse

/-- The next `sort` state set by `handleSort(sortKey)` (lines 245-248). -/
def handleSort (sort : SortSelection) (sortKey : SortKey) : SortSelection :=
  let isReverse := sort.sortKey == sortKey && !sort.isReverse
  { sortKey := sortKey, isReverse := isReverse }

/-! ## Example data of the scenarios -/

/-- The first story of the scenarios, `{objectID: "1", title: "B"}`. -/
def storyB : Story := { objectID := "1", title := "B" }

/-- The second story of the scenarios, `{objectID: "2", title: "A"}`. -/
def storyA : Story := { objectID := "2", title := "A" }

/-- A story with five comments. -/
def storyX : Story := { objectID := "10", title := "X", num_comments := 5 }

/-- Another story with five comments. -/
def storyY : Story := { objectID := "11", title := "Y", num_comments := 5 }

/-! ## Helper lemmas on `sortBy` -/

section SortBy

variable {α κ : Type} [LinearOrder κ]

/-- Insertion adds exactly the inserted element. -/
theorem orderedInsert_perm (f : α → κ) (a : α) (l : List α) :
    (orderedInsert f a l).Perm (a :: l) := by
  induction l with
  | nil => exact List.Perm.refl _
  | cons b l ih =>
      unfold orderedInsert
      split
      · exact List.Perm.refl _
      · exact (List.Perm.cons b ih).trans (List.Perm.swap a b l)

/-- The result of `sortBy` is a permutation of its input. -/
theorem sortBy_perm (l : List α) (f : α → κ) : (sortBy l f).Perm l := by
  induction l with
  | nil => exact List.Perm.refl _
  | cons a l ih =>
      exact (orderedInsert_perm f a (sortBy l f)).trans (List.Perm.cons a ih)

/-- Insertion into an ascending list gives an ascending list. -/
theorem orderedInsert_pairwise (f : α → κ) (a : α) (l : List α)
    (h : l.Pairwise (fun x y => f x ≤ f y)) :
    (orderedInsert f a l).Pairwise (fun x y => f x ≤ f y) := by
  induction l with
  | nil => simp [orderedInsert]
  | cons b l ih =>
      unfold orderedInsert
      have hb := List.pairwise_cons.1 h
      split
      · rename_i hab
        refine List.pairwise_cons.2 ⟨?_, h⟩
        intro y hy
        rcases List.mem_cons.1 hy with rfl | hy
        · exact hab
        · exact le_trans hab (hb.1 y hy)
      · rename_i hab
        refine List.pairwise_cons.2 ⟨?_, ih hb.2⟩
        intro y hy
        rcases List.mem_cons.1 ((orderedInsert_perm f a l).subset hy) with rfl | hy
        · exact le_of_lt (not_le.1 hab)
        · exact hb.1 y hy

/-- The result of `sortBy` is ascending in the iteratee's value. -/
theorem sortBy_pairwise (l : List α) (f : α → κ) :
    (sortBy l f).Pairwise (fun x y => f x ≤ f y) := by
  induction l with
  | nil => exact List.Pairwise.nil
  | cons a l ih => exact orderedInsert_pairwise f a (sortBy l f) ih

/-- Among the elements of one sort value, insertion puts the new element first. -/
theorem filter_orderedInsert (f : α → κ) (k : κ) (a : α) (l : List α) :
    (orderedInsert f a l).filter (fun x => decide (f x = k))
      = (a :: l).filter (fun x => decide (f x = k)) := by
  induction l with
  | nil => rfl
  | cons b l ih =>
      unfold orderedInsert
      split
      · rfl
      · rename_i hab
        rw [List.filter_cons, ih]
        by_cases hak : f a = k
        · have hbk : ¬ f b = k := fun hbk => hab (by rw [hak, hbk])
          simp [List.filter_cons, hak, hbk]
        · simp [List.filter_cons, hak]

/-- Stability of `sortBy`: the elements of one sort value keep their input order. -/
theorem filter_sortBy (l : List α) (f : α → κ) (k : κ) :
    (sortBy l f).filter (fun x => decide (f x = k)) = l.filter (fun x => decide (f x = k)) := by
  induction l with
  | nil => rfl
  | cons a l ih =>
      show (orderedInsert f a (sortBy l f)).filter _ = _
      rw [filter_orderedInsert, List.filter_cons, List.filter_cons, ih]

end SortBy

/-! ## Helper lemmas on `utf16` -/

/-- A character is a Unicode scalar value: no surrogate, below 0x110000. -/
theorem char_valid (c : Char) : c.toNat < 0xD800 ∨ (0xDFFF < c.toNat ∧ c.toNat < 0x110000) :=
  c.valid

/-- A character is determined by its code point. -/
theorem char_eq_of_toNat (c d : Char) (h : c.toNat = d.toNat) : c = d :=
  Char.ext (UInt32.ext h)

/-- The code units of a character can be read back off the front of a sequence. -/
theorem utf16Char_append_inj (c d : Char) (u v : List Nat)
    (h : utf16Char c ++ u = utf16Char d ++ v) : c = d ∧ u = v := by
  have hc := char_valid c
  have hd := char_valid d
  unfold utf16Char at h
  split at h <;> split at h
  · simp only [List.singleton_append, List.cons.injEq] at h
    exact ⟨char_eq_of_toNat c d h.1, h.2⟩
  · simp only [List.singleton_append, List.cons_append, List.nil_append, List.cons.injEq] at h
    omega
  · simp only [List.singleton_append, List.cons_append, List.nil_append, List.cons.injEq] at h
    omega
  · simp only [List.singleton_append, List.cons_append, List.nil_append, List.cons.injEq] at h
    refine ⟨char_eq_of_toNat c d (by omega), h.2.2⟩

/-- Two character sequences with the same code units are equal. -/
theorem flatMap_utf16Char_inj : ∀ l m : List Char,
    l.flatMap utf16Char = m.flatMap utf16Char → l = m
  | [], [] => fun _ => rfl
  | [], d :: m => by
      intro h
      simp only [List.flatMap_nil, List.flatMap_cons] at h
      unfold utf16Char at h
      split at h <;> simp at h
  | c :: l, [] => by
      intro h
      simp only [List.flatMap_nil, List.flatMap_cons] at h
      unfold utf16Char at h
      split at h <;> simp at h
  | c :: l, d :: m => by
      intro h
      simp only [List.flatMap_cons] at h
      obtain ⟨hcd, hrest⟩ := utf16Char_append_inj c d _ _ h
      rw [hcd, flatMap_utf16Char_inj l m hrest]

/-- Two strings have the same code units exactly when they are equal. -/
theorem utf16_inj (s t : String) : utf16 s = utf16 t ↔ s = t :=
  ⟨fun h => String.ext (flatMap_utf16Char_inj _ _ h), fun h => by rw [h]⟩

/-! ## Helper lemmas on the reducer -/

/-- The filter loop with a callback that never throws is the plain list filter. -/
theorem filterStories_ok (p : Story → Bool) (l : List Story) :
    filterStories (fun story => .ok (p story)) l = .ok (l.filter p) := by
  induction l with
  | nil => rfl
  | cons story rest ih =>
      simp only [filterStories, ih, List.filter_cons]

/-- The filter loop with a callback that always throws returns only on the empty array. -/
theorem filterStories_error (e : JSError) (l kept : List Story)
    (h : filterStories (fun _ => .error e) l = .ok kept) : l = [] ∧ kept = [] := by
  cases l with
  | nil =>
      simp only [filterStories, Except.ok.injEq] at h
      exact ⟨rfl, h.symm⟩
  | cons story rest => simp [filterStories] at h

/-- The callback of line 86 either throws on every story or decides by a fixed test. -/
theorem keepStory_cases (a : Action) :
    (a.payload = .undefined ∧ keepStory a = fun _ => .error .TypeError) ∨
    (a.payload ≠ .undefined ∧
      ∃ p : Story → Bool, keepStory a = fun story => .ok (p story)) := by
  cases hp : a.payload with
  | undefined =>
      refine Or.inl ⟨rfl, ?_⟩
      funext story
      simp [keepStory, hp, Value.objectID]
  | array stories =>
      refine Or.inr ⟨by simp, fun story => (none : Option String) != some story.objectID, ?_⟩
      funext story
      simp [keepStory, hp, Value.objectID]
  | object item =>
      refine Or.inr ⟨by simp, fun story => some item.objectID != some story.objectID, ?_⟩
      funext story
      simp [keepStory, hp, Value.objectID]

/-- With an item as payload the callback keeps the stories of another `objectID`. -/
theorem keepStory_object (type : String) (item : Story) :
    keepStory { type := type, payload := .object item }
      = fun story => .ok (item.objectID != story.objectID) := by
  funext story
  simp only [keepStory, Value.objectID, Except.ok.injEq]
  by_cases h : item.objectID = story.objectID
  · simp [h]
  · have h1 : (some item.objectID != some story.objectID) = true := by simpa using h
    have h2 : (item.objectID != story.objectID) = true := by simpa using h
    rw [h1, h2]

/-- A value that `filter` returned is returned again by the same `filter`. -/
theorem Value.filter_keepStory_twice (a : Action) (v v' : Value)
    (h : v.filter (keepStory a) = .ok v') : v'.filter (keepStory a) = .ok v' := by
  cases v with
  | undefined => simp [Value.filter] at h
  | object story => simp [Value.filter] at h
  | array l =>
      rcases keepStory_cases a with ⟨_, hk⟩ | ⟨_, p, hk⟩
      · rw [hk] at h ⊢
        cases hl : filterStories (fun _ => Except.error JSError.TypeError) l with
        | error e => simp [Value.filter, hl] at h
        | ok kept =>
            simp only [Value.filter, hl, Except.ok.injEq] at h
            obtain ⟨_, hkept⟩ := filterStories_error _ _ _ hl
            subst h
            subst hkept
            rfl
      · rw [hk] at h ⊢
        simp only [Value.filter, filterStories_ok, Except.ok.injEq] at h
        subst h
        simp only [Value.filter, filterStories_ok, List.filter_filter, Bool.and_self]

/-- The remove-story branch: the state with the filtered data, or what `filter` threw. -/
theorem storiesReducer_remove (s : State) (p : Value) :
    storiesReducer s { type := "REMOVE_STORY", payload := p }
      = match s.data.filter (keepStory { type := "REMOVE_STORY", payload := p }) with
        | .ok data => .ok { s with data := data }
        | .error e => .error e :=
  rfl

/-- One accepted reducer step keeps the flags from being both set. -/
theorem storiesReducer_flags (s s' : State) (a : Action)
    (hs : ¬ (s.isLoading = true ∧ s.isError = true))
    (h : storiesReducer s a = .ok s') :
    ¬ (s'.isLoading = true ∧ s'.isError = true) := by
  unfold storiesReducer at h
  split at h
  · simp only [Except.ok.injEq] at h; subst h; simp
  · simp only [Except.ok.injEq] at h; subst h; simp
  · simp only [Except.ok.injEq] at h; subst h; simp
  · split at h
    · simp only [Except.ok.injEq] at h; subst h; exact hs
    · simp at h
  · simp at h

/-- A run of accepted actions keeps the flags from being both set. -/
theorem dispatchAll_flags (actions : List Action) :
    ∀ s s' : State, ¬ (s.isLoading = true ∧ s.isError = true) →
      dispatchAll s actions = .ok s' → ¬ (s'.isLoading = true ∧ s'.isError = true) := by
  induction actions with
  | nil =>
      intro s s' hs h
      simp only [dispatchAll, Except.ok.injEq] at h
      subst h
      exact hs
  | cons a rest ih =>
      intro s s' hs h
      simp only [dispatchAll] at h
      cases hstep : storiesReducer s a with
      | error e => rw [hstep] at h; exact absurd h (by simp)
      | ok next =>
          rw [hstep] at h
          exact ih next s' (storiesReducer_flags s next a hs hstep) h

/-! ## Claims on the reducer -/

/-- C1: every state reached from the initial state by a finite sequence of accepted
actions has `isLoading` and `isError` not both true. -/
theorem C1_flags_never_both (actions : List Action) (s : State)
    (h : dispatchAll initialStories actions = .ok s) :
    ¬ (s.isLoading = true ∧ s.isError = true) :=
  dispatchAll_flags actions initialStories s (by simp [initialStories]) h

/-- C1, at the run fetch-init, fetch-failure, remove, fetch-init. -/
theorem C1_flags_never_both_witness :
    dispatchAll initialStories
        [{ type := "STORIES_FETCH_INIT" }, { type := "STORIES_FETCH_FAILURE" },
          { type := "REMOVE_STORY", payload := .object storyB }, { type := "STORIES_FETCH_INIT" }]
      = .ok { data := .array [], isLoading := true, isError := false } ∧
    ¬ ((State.mk (.array []) true false).isLoading = true ∧
        (State.mk (.array []) true false).isError = true) :=
  ⟨rfl, C1_flags_never_both
    [{ type := "STORIES_FETCH_INIT" }, { type := "STORIES_FETCH_FAILURE" },
      { type := "REMOVE_STORY", payload := .object storyB }, { type := "STORIES_FETCH_INIT" }]
    (State.mk (.array []) true false) rfl⟩

/-- C4: from every state, fetch-success with payload `p` returns the state whose data is
exactly `p` and whose two flags are false; on the scenario's loading state the payload
B, A is the resulting data in the same order. -/
theorem C4_fetch_success_replaces :
    (∀ (s : State) (p : Value),
      storiesReducer s { type := "STORIES_FETCH_SUCCESS", payload := p }
        = .ok { data := p, isLoading := false, isError := false }) ∧
    (∀ (s : State) (p : List Story),
      storiesReducer s { type := "STORIES_FETCH_SUCCESS", payload := .array p }
        = .ok { data := .array p, isLoading := false, isError := false }) ∧
    storiesReducer { data := .array [], isLoading := true, isError := false }
        { type := "STORIES_FETCH_SUCCESS", payload := .array [storyB, storyA] }
      = .ok { data := .array [storyB, storyA], isLoading := false, isError := false } :=
  ⟨fun _ _ => rfl, fun _ _ => rfl, rfl⟩

/-- C5: on every state whose data is an array, remove-story with an item returns a state
whose data is a subsequence of the old data (relative order kept), in which every story
with another objectID has its old multiplicity, in which no story has the item's objectID,
and whose flags are the old ones; removing objectID 1 from B, A leaves A. -/
theorem C5_remove_story :
    (∀ (data : List Story) (isLoading isError : Bool) (item : Story),
      ∃ (s' : State) (data' : List Story),
      storiesReducer { data := .array data, isLoading := isLoading, isError := isError }
        { type := "REMOVE_STORY", payload := .object item } = .ok s' ∧
      s'.data = .array data' ∧
      data'.Sublist data ∧
      (∀ story : Story, story.objectID ≠ item.objectID →
        data'.count story = data.count story) ∧
      (∀ story ∈ data', story.objectID ≠ item.objectID) ∧
      s'.isLoading = isLoading ∧ s'.isError = isError) ∧
    storiesReducer { data := .array [storyB, storyA], isLoading := false, isError := false }
        { type := "REMOVE_STORY", payload := .object { objectID := "1" } }
      = .ok { data := .array [storyA], isLoading := false, isError := false } := by
  refine ⟨?_, rfl⟩
  intro data isLoading isError item
  refine ⟨{ data := .array (data.filter (fun story => item.objectID != story.objectID)),
            isLoading := isLoading, isError := isError }, _, ?_, rfl,
    List.filter_sublist _, ?_, ?_, rfl, rfl⟩
  · rw [storiesReducer_remove, keepStory_object]
    simp only [Value.filter, filterStories_ok]
  · intro story hne
    exact List.count_filter (by simpa using fun h => hne h.symm)
  · intro story hmem
    have hkeep : ¬ item.objectID = story.objectID := by simpa using (List.mem_filter.1 hmem).2
    exact fun h => hkeep h.symm

/-- C6: remove-story is idempotent: dispatching it again on its own result returns that
result, for every state and every payload. -/
theorem C6_remove_story_idempotent (s : State) (p : Value) :
    (storiesReducer s { type := "REMOVE_STORY", payload := p } >>=
        fun s' => storiesReducer s' { type := "REMOVE_STORY", payload := p })
      = storiesReducer s { type := "REMOVE_STORY", payload := p } := by
  rw [storiesReducer_remove]
  cases h : s.data.filter (keepStory { type := "REMOVE_STORY", payload := p }) with
  | error e => rfl
  | ok data =>
      show storiesReducer { s with data := data } { type := "REMOVE_STORY", payload := p } = _
      rw [storiesReducer_remove]
      simp only [Value.filter_keepStory_twice _ _ _ h]

/-- C7, refuted at a recognised type: remove-story without a payload on the one-story data
B raises a `TypeError` and returns no state. -/
theorem C7_remove_without_payload_throws :
    (Action.mk "REMOVE_STORY" .undefined).type ∈ recognizedTypes ∧
    storiesReducer { data := .array [storyB], isLoading := false, isError := false }
        { type := "REMOVE_STORY", payload := .undefined } = .error .TypeError ∧
    ¬ ∃ s' : State,
      storiesReducer { data := .array [storyB], isLoading := false, isError := false }
        { type := "REMOVE_STORY", payload := .undefined } = .ok s' := by
  refine ⟨by decide, rfl, ?_⟩
  rintro ⟨s', h⟩
  have hthrow : storiesReducer { data := .array [storyB], isLoading := false, isError := false }
      { type := "REMOVE_STORY", payload := .undefined } = .error .TypeError := rfl
  rw [hthrow] at h
  exact Except.noConfusion h

/-- C7 as amended: the reducer throws its `new Error()` exactly when the action's type is
none of the four case labels; with the type fetch-init, fetch-success or fetch-failure it
returns a state; with the type remove-story it returns a state exactly when `state.data` is
an array that is empty or whose callback finds a payload, and raises a `TypeError`
otherwise. -/
theorem C7_throw_boundary (s : State) (a : Action) :
    (storiesReducer s a = .error (.Error "") ↔ a.type ∉ recognizedTypes) ∧
    (a.type ∈ recognizedTypes → a.type ≠ "REMOVE_STORY" →
      ∃ s' : State, storiesReducer s a = .ok s') ∧
    (a.type = "REMOVE_STORY" →
      ((∃ s' : State, storiesReducer s a = .ok s') ↔
        ∃ stories : List Story,
          s.data = .array stories ∧ (stories = [] ∨ a.payload ≠ .undefined)) ∧
      ((∃ s' : State, storiesReducer s a = .ok s') ∨
        storiesReducer s a = .error .TypeError)) := by
  obtain ⟨type, payload⟩ := a
  refine ⟨?_, ?_, ?_⟩
  · simp only [recognizedTypes, List.mem_cons, List.mem_singleton, List.not_mem_nil, or_false,
      not_or]
    unfold storiesReducer
    constructor
    · intro h
      split at h
      · simp at h
      · simp at h
      · simp at h
      · split at h
        · simp at h
        · rename_i e hfilter
          exfalso
          simp only [Except.error.injEq] at h
          subst h
          cases hd : s.data with
          | undefined => simp [Value.filter, hd] at hfilter
          | object story => simp [Value.filter, hd] at hfilter
          | array l =>
              rw [hd] at hfilter
              rcases keepStory_cases { type := type, payload := payload } with
                ⟨_, hk⟩ | ⟨_, p, hk⟩
              · rw [hk] at hfilter
                cases l with
                | nil => simp [Value.filter, filterStories] at hfilter
                | cons story rest => simp [Value.filter, filterStories] at hfilter
              · rw [hk] at hfilter
                simp [Value.filter, filterStories_ok] at hfilter
      · rename_i h1 h2 h3 h4
        exact ⟨h1, h2, h3, h4⟩
    · rintro ⟨h1, h2, h3, h4⟩
      split
      · rename_i heq; exact absurd heq h1
      · rename_i heq; exact absurd heq h2
      · rename_i heq; exact absurd heq h3
      · rename_i heq; exact absurd heq h4
      · rfl
  · intro hmem hne
    simp only [recognizedTypes, List.mem_cons, List.mem_singleton, List.not_mem_nil,
      or_false] at hmem
    rcases hmem with h | h | h | h
    · subst h; exact ⟨_, rfl⟩
    · subst h; exact ⟨_, rfl⟩
    · subst h; exact ⟨_, rfl⟩
    · exact absurd h hne
  · intro htype
    simp only at htype
    subst htype
    rw [storiesReducer_remove]
    cases hd : s.data with
    | undefined =>
        refine ⟨⟨fun ⟨s', h⟩ => by simp [Value.filter] at h, fun ⟨l, h, _⟩ => by simp at h⟩,
          Or.inr rfl⟩
    | object story =>
        refine ⟨⟨fun ⟨s', h⟩ => by simp [Value.filter] at h, fun ⟨l, h, _⟩ => by simp at h⟩,
          Or.inr rfl⟩
    | array l =>
        rcases keepStory_cases { type := "REMOVE_STORY", payload := payload } with
          ⟨hp, hk⟩ | ⟨hp, p, hk⟩
        · simp only at hp
          subst hp
          rw [hk]
          cases l with
          | nil =>
              exact ⟨⟨fun _ => ⟨[], rfl, Or.inl rfl⟩, fun _ => ⟨_, rfl⟩⟩, Or.inl ⟨_, rfl⟩⟩
          | cons story rest =>
              refine ⟨⟨fun ⟨s', h⟩ => by simp [Value.filter, filterStories] at h,
                fun ⟨l, h, hl⟩ => ?_⟩, Or.inr rfl⟩
              simp only [Value.array.injEq] at h
              subst h
              simp at hl
        · simp only at hp
          rw [hk]
          simp only [Value.filter, filterStories_ok]
          exact ⟨⟨fun _ => ⟨l, rfl, Or.inr hp⟩, fun _ => ⟨_, rfl⟩⟩, Or.inl ⟨_, rfl⟩⟩

/-- C7 as amended, at an unknown type, at fetch-failure with a payload, at remove-story
with an item and at remove-story without a payload on empty data. -/
theorem C7_throw_boundary_witness :
    storiesReducer initialStories { type := "RESET" } = .error (.Error "") ∧
    (∃ s' : State,
      storiesReducer initialStories { type := "STORIES_FETCH_FAILURE", payload := .object storyA }
        = .ok s') ∧
    (∃ s' : State,
      storiesReducer { data := .array [storyB], isLoading := false, isError := false }
        { type := "REMOVE_STORY", payload := .object storyB } = .ok s') ∧
    (∃ s' : State, storiesReducer initialStories { type := "REMOVE_STORY" } = .ok s') :=
  ⟨(C7_throw_boundary initialStories { type := "RESET" }).1.2 (by decide),
    (C7_throw_boundary initialStories
      { type := "STORIES_FETCH_FAILURE", payload := .object storyA }).2.1
      (by decide) (by decide),
    ((C7_throw_boundary { data := .array [storyB], isLoading := false, isError := false }
      { type := "REMOVE_STORY", payload := .object storyB }).2.2 rfl).1.2
      ⟨[storyB], rfl, Or.inr (by decide)⟩,
    ((C7_throw_boundary initialStories { type := "REMOVE_STORY" }).2.2 rfl).1.2
      ⟨[], rfl, Or.inl rfl⟩⟩

/-- C8: fetch-init returns the state with the old data, `isLoading` true and `isError`
false; a fetch-failure after it returns the old data, `isLoading` false and `isError`
true; both whatever payload the action carries. -/
theorem C8_init_failure_keep_data (s : State) (p q : Value) :
    storiesReducer s { type := "STORIES_FETCH_INIT", payload := p }
      = .ok { data := s.data, isLoading := true, isError := false } ∧
    dispatchAll s [{ type := "STORIES_FETCH_INIT", payload := p },
        { type := "STORIES_FETCH_FAILURE", payload := q }]
      = .ok { data := s.data, isLoading := false, isError := true } ∧
    storiesReducer s { type := "STORIES_FETCH_FAILURE", payload := q }
      = .ok { data := s.data, isLoading := false, isError := true } :=
  ⟨rfl, rfl, rfl⟩

/-! ## Claims on `SORTS` -/

/-- C2: each keyed entry of `SORTS` returns a permutation of its input in which every
adjacent pair is ordered by the key: ascending titles for TITLE, ascending authors for
AUTHOR (strings compared by their code units), descending `num_comments` for COMMENTS and
descending `points` for POINTS; TITLE applied to B, A yields A, B. -/
theorem C2_sorts_ordered_permutation :
    (∀ list : List Story,
      (SORTS .TITLE list).Perm list ∧
      (SORTS .TITLE list).Chain' (fun a b => utf16 a.title ≤ utf16 b.title)) ∧
    (∀ list : List Story,
      (SORTS .AUTHOR list).Perm list ∧
      (SORTS .AUTHOR list).Chain' (fun a b => utf16 a.author ≤ utf16 b.author)) ∧
    (∀ list : List Story,
      (SORTS .COMMENTS list).Perm list ∧
      (SORTS .COMMENTS list).Chain' (fun a b => a.num_comments ≥ b.num_comments)) ∧
    (∀ list : List Story,
      (SORTS .POINTS list).Perm list ∧
      (SORTS .POINTS list).Chain' (fun a b => a.points ≥ b.points)) ∧
    SORTS .TITLE [storyB, storyA] = [storyA, storyB] := by
  refine ⟨fun list => ⟨sortBy_perm _ _, (sortBy_pairwise _ _).chain'⟩,
    fun list => ⟨sortBy_perm _ _, (sortBy_pairwise _ _).chain'⟩,
    fun list => ⟨(List.reverse_perm _).trans (sortBy_perm _ _), ?_⟩,
    fun list => ⟨(List.reverse_perm _).trans (sortBy_perm _ _), ?_⟩, by decide⟩
  · exact (List.pairwise_reverse.2
      (sortBy_pairwise list (fun story => story.num_comments))).chain'
  · exact (List.pairwise_reverse.2
      (sortBy_pairwise list (fun story => story.points))).chain'

/-- C3, refuted for COMMENTS: X and Y have the same `num_comments` and X precedes Y in the
input, yet Y precedes X in the output. -/
theorem C3_comments_reverses_ties :
    storyX.num_comments = storyY.num_comments ∧
    SORTS .COMMENTS [storyX, storyY] = [storyY, storyX] ∧
    (SORTS .COMMENTS [storyX, storyY]).filter (fun s => decide (s.num_comments = 5))
      ≠ [storyX, storyY].filter (fun s => decide (s.num_comments = 5)) := by
  decide

/-- C3 as amended: NONE returns its input; under TITLE and AUTHOR the stories of one sort
value appear in their input order; under COMMENTS and POINTS the stories of one sort value
appear in the reverse of their input order. -/
theorem C3_stable_up_to_reverse :
    (∀ list : List Story, SORTS .NONE list = list) ∧
    (∀ (list : List Story) (k : String),
      (SORTS .TITLE list).filter (fun s => decide (s.title = k))
        = list.filter (fun s => decide (s.title = k))) ∧
    (∀ (list : List Story) (k : String),
      (SORTS .AUTHOR list).filter (fun s => decide (s.author = k))
        = list.filter (fun s => decide (s.author = k))) ∧
    (∀ (list : List Story) (k : Nat),
      (SORTS .COMMENTS list).filter (fun s => decide (s.num_comments = k))
        = (list.filter (fun s => decide (s.num_comments = k))).reverse) ∧
    (∀ (list : List Story) (k : Int),
      (SORTS .POINTS list).filter (fun s => decide (s.points = k))
        = (list.filter (fun s => decide (s.points = k))).reverse) := by
  refine ⟨fun _ => rfl, ?_, ?_, ?_, ?_⟩
  · intro list k
    have h := filter_sortBy list (fun story => utf16 story.title) (utf16 k)
    simpa only [utf16_inj, SORTS] using h
  · intro list k
    have h := filter_sortBy list (fun story => utf16 story.author) (utf16 k)
    simpa only [utf16_inj, SORTS] using h
  · intro list k
    show ((sortBy list (fun story => story.num_comments)).reverse).filter _ = _
    rw [List.filter_reverse, filter_sortBy list (fun story => story.num_comments) k]
  · intro list k
    show ((sortBy list (fun story => story.points)).reverse).filter _ = _
    rw [List.filter_reverse, filter_sortBy list (fun story => story.points) k]

/-! ## Claims on `useSemiPersistentState` -/

/-- C9, refuted at the empty string: after the search field wrote the empty string under
`search`, the store holds it, and the hook starts from the default `React`. -/
theorem C9_empty_string_gives_default :
    (Storage.setItem [] "search" "").getItem "search" = some "" ∧
    useSemiPersistentState (Storage.setItem [] "search" "") "search" "React" = "React" ∧
    useSemiPersistentState (Storage.setItem [] "search" "") "search" "React" ≠ "" := by
  decide

/-- C9 as amended: the initial value is the stored string when one is stored and it is not
empty, and `initialState` when the key is absent or the stored string is empty. -/
theorem C9_initial_value (store : Storage) (key initialState : String) :
    (∀ s : String, store.getItem key = some s → s ≠ "" →
      useSemiPersistentState store key initialState = s) ∧
    (store.getItem key = none → useSemiPersistentState store key initialState = initialState) ∧
    (store.getItem key = some "" →
      useSemiPersistentState store key initialState = initialState) := by
  refine ⟨fun s hs hne => ?_, fun h => ?_, fun h => ?_⟩
  · simp [useSemiPersistentState, orElse, hs, hne]
  · simp [useSemiPersistentState, orElse, h]
  · simp [useSemiPersistentState, orElse, h]

/-- C9 as amended, at a store holding `Redux` under `search`: the hook starts from it. -/
theorem C9_initial_value_witness :
    Storage.getItem [("search", "Redux")] "search" = some "Redux" ∧
    useSemiPersistentState [("search", "Redux")] "search" "React" = "Redux" ∧
    useSemiPersistentState [] "search" "React" = "React" :=
  ⟨rfl, (C9_initial_value [("search", "Redux")] "search" "React").1 "Redux" rfl (by decide),
    (C9_initial_value [] "search" "React").2.1 rfl⟩

/-! ## Claims on `List` -/

/-- C10, the code at the failing input: with the reverse flag set, `sortedList` is the
comparator's output itself, and with the flag clear it is the reverse of that output.
Two clicks on Title set the flag; B, A is then shown as A, B, while the reverse of the
TITLE output is B, A. -/
theorem C10_reverse_flag_inverted :
    (∀ (key : SortKey) (list : List Story),
      sortedList { sortKey := key, isReverse := true } list = SORTS key list) ∧
    (∀ (key : SortKey) (list : List Story),
      sortedList { sortKey := key, isReverse := false } list = (SORTS key list).reverse) ∧
    handleSort (handleSort { sortKey := .NONE, isReverse := false } .TITLE) .TITLE
      = { sortKey := .TITLE, isReverse := true } ∧
    sortedList { sortKey := .TITLE, isReverse := true } [storyB, storyA] = [storyA, storyB] ∧
    (SORTS .TITLE [storyB, storyA]).reverse = [storyB, storyA] := by
  refine ⟨fun _ _ => rfl, fun _ _ => rfl, by decide, by decide, by decide⟩

end ReactJourney
